import Mathlib

/-!
Shallow embedding of `src/main.py` of MovieOrganizer.

Modelling conventions:
* Paths are `String`s; the filesystem is modelled by explicit lists of
  directory entries (`DirEntry`) passed to the functions that list a folder.
* Mutating operations (`os.rename`, `shutil.rmtree`, `os.remove`) and external
  process invocations (`subprocess.run`) are recorded as an explicit `Effect`
  log instead of being performed.
* External process exit codes are supplied by an environment
  `ProcEnv : List String → Nat`; `subprocess.run(..., check=True)` raises
  `CalledProcessError` exactly when the exit code is non-zero.
* Python `re` semantics for the two patterns used by the script are embedded
  directly: `.` matches any character except a newline, and `$` matches at the
  end of the string or just before a single trailing newline.  `\d` is
  modelled as an ASCII digit.
-/

namespace MovieOrganizer

/-- Index of the last occurrence of `c`, if any (`str.rfind` on a char). -/
def lastIdxOf (c : Char) : List Char → Option Nat
  | [] => none
  | a :: rest =>
    match lastIdxOf c rest with
    | some i => some (i + 1)
    | none => if a = c then some 0 else none

/-- `os.path.basename`: everything after the last `/` (the whole string when
there is no `/`). -/
def basename (p : String) : String :=
  match lastIdxOf '/' p.data with
  | none => p
  | some s => String.mk (p.data.drop (s + 1))

/-- `os.path.splitext`: splits off the extension beginning at the last dot,
provided some character strictly between the last path separator and that dot
is not itself a dot (so leading dot-runs such as `.bashrc` are not
extensions). -/
def splitext (p : String) : String × String :=
  let cs := p.data
  let sepEnd : Nat :=
    match lastIdxOf '/' cs with
    | none => 0
    | some s => s + 1
  match lastIdxOf '.' cs with
  | none => (p, "")
  | some d =>
    if sepEnd ≤ d then
      if ((cs.drop sepEnd).take (d - sepEnd)).any (fun c => c ≠ '.') then
        (String.mk (cs.take d), String.mk (cs.drop d))
      else (p, "")
    else (p, "")

/-- Does the string start with the single character `c`? -/
def startsWithChar (s : String) (c : Char) : Bool :=
  s.data.head? == some c

/-- `os.path.join` for two components (POSIX rules). -/
def joinPath (a b : String) : String :=
  if startsWithChar b '/' then b
  else if a = "" || a.data.getLast? == some '/' then a ++ b
  else a ++ "/" ++ b

/-- One entry of a directory listing, as seen by `os.listdir` plus the
`os.path.isdir` test on the joined path. -/
structure DirEntry where
  name : String
  isDir : Bool
deriving DecidableEq, Repr

/-- A folder: its path together with its direct children. -/
structure Folder where
  path : String
  entries : List DirEntry
deriving DecidableEq, Repr

def PREFERRED_VIDEO_EXTENSION : String := ".mkv"

def VIDEO_EXTENSIONS : List String :=
  [".avi", ".mkv", ".mov", ".mp4", ".webm", ".wmv"]

/-- Modelled from the spec: the `operations` module (not under `src/`)
provides an enum with the two mutually exclusive operations, transcode and
remux. -/
inductive Operations where
  | TRANSCODE
  | REMUX
deriving DecidableEq, Repr

/-- Filesystem / process effects the script can perform in apply mode. -/
inductive Effect where
  | rename (src dst : String)
  | run (args : List String)
  | rmtree (path : String)
  | remove (path : String)
deriving DecidableEq, Repr

/-- Python exceptions that `process_folder` does NOT catch (its
`except AssertionError` handler turns assertion failures into a return
value; these propagate). -/
inductive PyErr where
  | calledProcessError (args : List String)
  | attributeError
deriving DecidableEq, Repr

/-- Exit codes of external processes, keyed by the argument list. -/
abbrev ProcEnv := List String → Nat

/-- Does `re.search(r'\(\d\d\d\d\)', ·)` match at the very start of the
character list?  Returns the integer value of the four digits. -/
def matchYearAt : List Char → Option Nat
  | '(' :: c1 :: c2 :: c3 :: c4 :: ')' :: _ =>
    if c1.isDigit && c2.isDigit && c3.isDigit && c4.isDigit then
      some ((c1.toNat - '0'.toNat) * 1000 + (c2.toNat - '0'.toNat) * 100 +
            (c3.toNat - '0'.toNat) * 10 + (c4.toNat - '0'.toNat))
    else none
  | _ => none

/-- Leftmost match of `re.search(r'\(\d\d\d\d\)', ·)`, already converted with
`int(year_str[1:-1])` (for ASCII digits `int` is exactly this positional
value). -/
def searchYear : List Char → Option Nat
  | [] => none
  | c :: rest =>
    match matchYearAt (c :: rest) with
    | some y => some y
    | none => searchYear rest

/-- `extract_year` of `main.py`: `None` models the `AttributeError` raised by
`.group()` when `re.search` finds nothing. -/
def extract_year (folder_path : String) : Option Nat :=
  searchYear (basename folder_path).data

/-- Is `cs` of the form `<non-empty newline-free prefix> (dddd)`?  This is the
part of `re.match(r'^.+ \(\d\d\d\d\)$', ·)` that consumes characters: `.+`
cannot cross a newline. -/
def yearSuffix? : List Char → Bool
  | [a, b, c1, c2, c3, c4, d] =>
    a = ' ' && b = '(' && c1.isDigit && c2.isDigit && c3.isDigit && c4.isDigit
      && d = ')'
  | _ => false

def coreMatch (cs : List Char) : Bool :=
  decide (8 ≤ cs.length) && yearSuffix? (cs.drop (cs.length - 7))
    && !((cs.take (cs.length - 7)).contains '\n')

/-- Full semantics of `re.match(r'^.+ \(\d\d\d\d\)$', name) != None`: the
pattern must consume the whole string, except that `$` also matches just
before a single newline at the very end. -/
def matchesNamePattern (cs : List Char) : Bool :=
  coreMatch cs ||
    ((cs.getLast? == some '\n') && coreMatch cs.dropLast)

/-- `check_proper_folder_name` of `main.py`. -/
def check_proper_folder_name (folder_path : String) : Bool :=
  matchesNamePattern (basename folder_path).data

/-- The body of the `find_proper_video` loop for a single directory entry:
`some path` exactly when the entry is appended to `video_file_matches`. -/
def videoMatch? (year : Nat) (folder_path : String) (e : DirEntry) :
    Option String :=
  let dir_entry_path := joinPath folder_path e.name
  if e.isDir then none
  else
    let nm := (splitext e.name).1
    let ext := (splitext e.name).2
    if ext ∈ VIDEO_EXTENSIONS then
      if List.IsInfix (toString year).data nm.data then some dir_entry_path
      else none
    else none

/-- `find_proper_video` of `main.py`; `none` models the `AttributeError`
raised inside `extract_year` when the folder name holds no `(dddd)`. -/
def find_proper_video (folder : Folder) : Option (List String) :=
  match extract_year folder.path with
  | none => none
  | some year => some (folder.entries.filterMap (videoMatch? year folder.path))

/-- `rename_proper_video` of `main.py`: result value `(new path, message)`
paired with the effects performed. -/
def rename_proper_video (folder_path video_path : String) (modify : Bool) :
    (String × String) × List Effect :=
  let new_name := (splitext (basename folder_path)).1
  let current_name := (splitext (basename video_path)).1
  let current_extension := (splitext (basename video_path)).2
  let new_video_path := joinPath folder_path (new_name ++ current_extension)
  if modify then
    ((new_video_path,
      s!"[RENAMED] {current_name}{current_extension} to {new_name}{current_extension}"),
     [Effect.rename video_path new_video_path])
  else
    ((new_video_path,
      s!"Rename {current_name}{current_extension} to {new_name}{current_extension}"),
     [])

def transcodeArgs (input output : String) : List String :=
  ["handbrake", "-i", input, "--preset", "H.264 MKV 1080p30", "-o", output]

def remuxArgs (input output : String) : List String :=
  ["ffmpeg", "-i", input, "-c", "copy", "-map", "0", output]

/-- The argument list `convert_proper_video` would pass to `subprocess.run`
for the given operation (only meaningful when the extension differs from the
preferred one). -/
def convArgs (operation : Operations) (folder_path video_path : String) :
    List String :=
  let current_name := (splitext (basename video_path)).1
  let new_video_path :=
    joinPath folder_path (current_name ++ PREFERRED_VIDEO_EXTENSION)
  match operation with
  | Operations.TRANSCODE => transcodeArgs video_path new_video_path
  | Operations.REMUX => remuxArgs video_path new_video_path

/-- `convert_proper_video` of `main.py`.  `subprocess.run(..., check=True)`
raises `CalledProcessError` exactly when the environment reports a non-zero
exit code; the `.run` effect is recorded in either case. -/
def convert_proper_video (env : ProcEnv) (folder_path video_path : String)
    (operation : Operations) (modify : Bool) :
    Except PyErr (String × String) × List Effect :=
  let current_name := (splitext (basename video_path)).1
  let current_extension := (splitext (basename video_path)).2
  if current_extension = PREFERRED_VIDEO_EXTENSION then
    (Except.ok (video_path,
       s!"{video_path} already encoded as {PREFERRED_VIDEO_EXTENSION}"), [])
  else
    let new_video_path :=
      joinPath folder_path (current_name ++ PREFERRED_VIDEO_EXTENSION)
    match operation with
    | Operations.TRANSCODE =>
      if modify then
        let args := convArgs Operations.TRANSCODE folder_path video_path
        if env args ≠ 0 then
          (Except.error (PyErr.calledProcessError args), [Effect.run args])
        else
          (Except.ok (new_video_path,
             s!"[TRANSCODED] {current_name}{current_extension} to {current_name}{PREFERRED_VIDEO_EXTENSION}\n\n\n"),
           [Effect.run args])
      else
        (Except.ok (new_video_path,
           s!"Transcode {current_name}{current_extension} to {current_name}{PREFERRED_VIDEO_EXTENSION}"),
         [])
    | Operations.REMUX =>
      if modify then
        let args := convArgs Operations.REMUX folder_path video_path
        if env args ≠ 0 then
          (Except.error (PyErr.calledProcessError args), [Effect.run args])
        else
          (Except.ok (new_video_path,
             s!"[REMUXED] {current_name}{current_extension} to {current_name}{PREFERRED_VIDEO_EXTENSION}\n\n\n"),
           [Effect.run args])
      else
        (Except.ok (new_video_path,
           s!"Remux {current_name}{current_extension} to {current_name}{PREFERRED_VIDEO_EXTENSION}"), [])

/-- The message `delete_excess_files` records for a non-kept entry path. -/
def deleteMsgOf (modify : Bool) (dir_entry_path : String) : String :=
  let current_name := (splitext (basename dir_entry_path)).1
  let current_extension := (splitext (basename dir_entry_path)).2
  if modify then s!"[DELETED] {current_name}{current_extension}"
  else s!"Delete {current_name}{current_extension}"

/-- The deletion effect for a non-kept entry: directories are removed
recursively (`shutil.rmtree`), files individually (`os.remove`). -/
def deleteEffOf (e : DirEntry) (dir_entry_path : String) : Effect :=
  if e.isDir then Effect.rmtree dir_entry_path else Effect.remove dir_entry_path

/-- `delete_excess_files` of `main.py`, over the folder's current listing:
returns the recorded messages and the effects performed. -/
def delete_excess_files (folder_path : String) (entries : List DirEntry)
    (proper_video_path : String) (modify : Bool) : List String × List Effect :=
  match entries with
  | [] => ([], [])
  | e :: rest =>
    let tailRes := delete_excess_files folder_path rest proper_video_path modify
    let dir_entry_path := joinPath folder_path e.name
    if dir_entry_path = proper_video_path then tailRes
    else if modify then
      (deleteMsgOf true dir_entry_path :: tailRes.1,
       deleteEffOf e dir_entry_path :: tailRes.2)
    else (deleteMsgOf false dir_entry_path :: tailRes.1, tailRes.2)

/-- Interpretation of an effect on a folder's listing (what the OS does). -/
def applyEffect (folder_path : String) (entries : List DirEntry) :
    Effect → List DirEntry
  | Effect.rename src dst =>
    entries.map fun e =>
      if joinPath folder_path e.name = src then ⟨basename dst, e.isDir⟩ else e
  | Effect.run _ => entries
  | Effect.rmtree p => entries.filter fun e => joinPath folder_path e.name ≠ p
  | Effect.remove p => entries.filter fun e => joinPath folder_path e.name ≠ p

def applyEffects (folder_path : String) (entries : List DirEntry)
    (effs : List Effect) : List DirEntry :=
  effs.foldl (applyEffect folder_path) entries

deriving instance DecidableEq for Except

/-- Result of one `process_folder` run.  `outcome`: `.ok none` models the
Python return `(True, None)`, `.ok (some msg)` models `(False, msg)` (an
`AssertionError` caught by the handler), `.error` an uncaught exception.
`printed` collects the per-action messages printed inside the `try` block. -/
structure RunResult where
  outcome : Except PyErr (Option String)
  effects : List Effect
  printed : List String
deriving DecidableEq, Repr

/-- `process_folder` of `main.py`.  Modelled from the spec for the one part
of the apply-mode filesystem evolution the repository delegates to the
external tool: a successful conversion run creates the output file, so its
entry is appended to the listing before excess files are deleted. -/
def process_folder (env : ProcEnv) (folder : Folder) (operation : Operations)
    (modify : Bool) : RunResult :=
  if check_proper_folder_name folder.path then
    match find_proper_video folder with
    | none => ⟨Except.error PyErr.attributeError, [], []⟩
    | some possible_video_matches =>
      match possible_video_matches with
      | [video_path] =>
        let rn := rename_proper_video folder.path video_path modify
        let renamed_video_path := rn.1.1
        let rename_message := rn.1.2
        let eff1 := rn.2
        let entries1 := applyEffects folder.path folder.entries eff1
        let cv := convert_proper_video env folder.path renamed_video_path
          operation modify
        match cv.1 with
        | Except.error e => ⟨Except.error e, eff1 ++ cv.2, [rename_message]⟩
        | Except.ok res =>
          let converted_path := res.1
          let convert_message := res.2
          let entries2 :=
            if cv.2.isEmpty then entries1
            else entries1 ++ [⟨basename converted_path, false⟩]
          let del := delete_excess_files folder.path entries2 converted_path
            modify
          ⟨Except.ok none, eff1 ++ cv.2 ++ del.2,
           rename_message :: convert_message :: del.1⟩
      | _ =>
        ⟨Except.ok (some "Could not automatically isolate correct video"),
         [], []⟩
  else ⟨Except.ok (some "Improper folder name"), [], []⟩

/-- One entry of the parent folder in batch (`--many`) mode: its name, the
`os.path.isdir` flag, and (for directories) its own listing. -/
structure ParentEntry where
  name : String
  isDir : Bool
  contents : List DirEntry
deriving DecidableEq, Repr

/-- Code-point lexicographic comparison; Python compares strings this way. -/
def charListLe : List Char → List Char → Bool
  | [], _ => true
  | _ :: _, [] => false
  | a :: s, b :: t => if a = b then charListLe s t else decide (a < b)

/-- The order `sorted` uses on the parent's directory listing. -/
def nameLe (a b : ParentEntry) : Prop :=
  charListLe a.name.data b.name.data = true

instance : DecidableRel nameLe :=
  fun a b => instDecidableEqBool (charListLe a.name.data b.name.data) true

/-- The `--many` loop of `main` over an already filtered-and-sorted listing:
runs `process_folder` on each directory and accumulates the
`requires_manual_intervention` report in iteration order; an uncaught
exception from a folder aborts the whole run. -/
def runFolders (env : ProcEnv) (parent : String) (operation : Operations)
    (modify : Bool) : List ParentEntry → Except PyErr (List (String × String))
  | [] => Except.ok []
  | e :: rest =>
    if e.isDir then
      match (process_folder env ⟨joinPath parent e.name, e.contents⟩
          operation modify).outcome with
      | Except.error pe => Except.error pe
      | Except.ok none => runFolders env parent operation modify rest
      | Except.ok (some err) =>
        match runFolders env parent operation modify rest with
        | Except.error pe => Except.error pe
        | Except.ok report =>
          Except.ok ((joinPath parent e.name, err) :: report)
    else runFolders env parent operation modify rest

/-- Batch (`--many`) mode of `main`: list the parent, drop names starting
with `.`, sort (Python `sorted` is a stable sort over code-point order, so it
agrees with insertion sort), and process each directory entry. -/
def main_many (env : ProcEnv) (parent : String) (entries : List ParentEntry)
    (operation : Operations) (modify : Bool) :
    Except PyErr (List (String × String)) :=
  runFolders env parent operation modify
    (List.insertionSort nameLe
      (entries.filter fun e => !(startsWithChar e.name '.')))

/-- The spec's wording of the folder-name contract, for comparison with the
code's regex: the base name is a non-empty prefix, then a space and a
parenthesised 4-digit year, with nothing after the closing parenthesis. -/
def specProperName (cs : List Char) : Prop :=
  ∃ l c1 c2 c3 c4, cs = l ++ [' ', '(', c1, c2, c3, c4, ')'] ∧ l ≠ [] ∧
    (c1.isDigit = true ∧ c2.isDigit = true ∧ c3.isDigit = true ∧
      c4.isDigit = true)

/-- Executable form of `specProperName`. -/
def specProperNameB (cs : List Char) : Bool :=
  decide (8 ≤ cs.length) && yearSuffix? (cs.drop (cs.length - 7))

/-! ### Helper lemmas: the folder-name pattern -/

lemma charListLe_total : ∀ s t, charListLe s t = true ∨ charListLe t s = true
  | [], _ => Or.inl rfl
  | _ :: _, [] => Or.inr rfl
  | a :: s, b :: t => by
    rcases lt_trichotomy a b with h | h | h
    · left
      simp [charListLe, ne_of_lt h, h]
    · subst h
      simp only [charListLe, if_pos rfl]
      exact charListLe_total s t
    · right
      simp [charListLe, ne_of_lt h, h]

lemma charListLe_trans : ∀ s t u, charListLe s t = true →
    charListLe t u = true → charListLe s u = true
  | [], _, _, _, _ => rfl
  | _ :: _, [], _, h, _ => by cases h
  | _ :: _, _ :: _, [], _, h => by cases h
  | a :: s, b :: t, c :: u, h1, h2 => by
    simp only [charListLe] at h1 h2 ⊢
    by_cases hab : a = b
    · subst hab
      rw [if_pos rfl] at h1
      by_cases hac : a = c
      · subst hac
        rw [if_pos rfl] at h2 ⊢
        exact charListLe_trans s t u h1 h2
      · rw [if_neg hac] at h2 ⊢
        exact h2
    · rw [if_neg hab] at h1
      by_cases hbc : b = c
      · subst hbc
        rw [if_neg hab]
        exact h1
      · rw [if_neg hbc] at h2
        have hab' : a < b := of_decide_eq_true h1
        have hbc' : b < c := of_decide_eq_true h2
        have hac' : a < c := lt_trans hab' hbc'
        rw [if_neg (ne_of_lt hac')]
        exact decide_eq_true hac'


lemma contains_false_iff (l : List Char) (c : Char) :
    (l.contains c = false) ↔ c ∉ l := by
  rw [← Bool.not_eq_true, List.contains_iff_exists_mem_beq]
  simp

lemma yearSuffix?_iff (l : List Char) :
    yearSuffix? l = true ↔
      ∃ c1 c2 c3 c4, l = [' ', '(', c1, c2, c3, c4, ')'] ∧
        c1.isDigit = true ∧ c2.isDigit = true ∧ c3.isDigit = true ∧
        c4.isDigit = true := by
  constructor
  · intro h
    unfold yearSuffix? at h
    split at h
    · next a b c1 c2 c3 c4 d =>
      simp only [Bool.and_eq_true, decide_eq_true_eq] at h
      refine ⟨c1, c2, c3, c4, ?_, ?_, ?_, ?_, ?_⟩ <;> simp_all
    · cases h
  · rintro ⟨c1, c2, c3, c4, rfl, h1, h2, h3, h4⟩
    simp [yearSuffix?, h1, h2, h3, h4]

lemma coreMatch_iff (cs : List Char) :
    coreMatch cs = true ↔
      ∃ l c1 c2 c3 c4, cs = l ++ [' ', '(', c1, c2, c3, c4, ')'] ∧ l ≠ [] ∧
        (c1.isDigit = true ∧ c2.isDigit = true ∧ c3.isDigit = true ∧
          c4.isDigit = true) ∧ '\n' ∉ l := by
  constructor
  · intro h
    simp only [coreMatch, Bool.and_eq_true, decide_eq_true_eq,
      Bool.not_eq_true'] at h
    obtain ⟨⟨hlen, hsuf⟩, hnl⟩ := h
    obtain ⟨c1, c2, c3, c4, hdrop, hd⟩ := (yearSuffix?_iff _).mp hsuf
    refine ⟨cs.take (cs.length - 7), c1, c2, c3, c4, ?_, ?_, hd, ?_⟩
    · conv_lhs => rw [← List.take_append_drop (cs.length - 7) cs]
      rw [hdrop]
    · intro hnil
      have hlt := congrArg List.length hnil
      simp only [List.length_take, List.length_nil] at hlt
      omega
    · exact (contains_false_iff _ _).mp hnl
  · rintro ⟨l, c1, c2, c3, c4, rfl, hne, hd, hnl⟩
    have hl1 : 1 ≤ l.length := by
      cases l with
      | nil => exact absurd rfl hne
      | cons a t => simp
    have hlen : (l ++ [' ', '(', c1, c2, c3, c4, ')']).length = l.length + 7 := by
      simp
    simp only [coreMatch, Bool.and_eq_true, decide_eq_true_eq,
      Bool.not_eq_true', hlen]
    have h7 : l.length + 7 - 7 = l.length := by omega
    rw [h7, List.drop_left, List.take_left]
    refine ⟨⟨by omega, ?_⟩, (contains_false_iff _ _).mpr hnl⟩
    exact (yearSuffix?_iff _).mpr ⟨c1, c2, c3, c4, rfl, hd⟩

lemma matchesNamePattern_iff (cs : List Char) :
    matchesNamePattern cs = true ↔
      ∃ l c1 c2 c3 c4 t,
        cs = l ++ [' ', '(', c1, c2, c3, c4, ')'] ++ t ∧ l ≠ [] ∧
        (c1.isDigit = true ∧ c2.isDigit = true ∧ c3.isDigit = true ∧
          c4.isDigit = true) ∧ '\n' ∉ l ∧ (t = [] ∨ t = ['\n']) := by
  unfold matchesNamePattern
  rw [Bool.or_eq_true, Bool.and_eq_true]
  constructor
  · rintro (hcore | ⟨hlast, hcore⟩)
    · obtain ⟨l, c1, c2, c3, c4, rfl, hne, hd, hnl⟩ := (coreMatch_iff _).mp hcore
      exact ⟨l, c1, c2, c3, c4, [], by simp, hne, hd, hnl, Or.inl rfl⟩
    · rcases List.eq_nil_or_concat cs with rfl | ⟨cs', a, rfl⟩
      · simp at hlast
      · simp only [List.concat_eq_append] at hlast hcore ⊢
        rw [List.getLast?_concat] at hlast
        have ha : a = '\n' := by simpa using hlast
        rw [List.dropLast_concat] at hcore
        obtain ⟨l, c1, c2, c3, c4, hcs', hne, hd, hnl⟩ :=
          (coreMatch_iff _).mp hcore
        refine ⟨l, c1, c2, c3, c4, ['\n'], ?_, hne, hd, hnl, Or.inr rfl⟩
        rw [hcs', ha]
  · rintro ⟨l, c1, c2, c3, c4, t, rfl, hne, hd, hnl, (rfl | rfl)⟩
    · left
      rw [List.append_nil]
      exact (coreMatch_iff _).mpr ⟨l, c1, c2, c3, c4, rfl, hne, hd, hnl⟩
    · right
      constructor
      · rw [List.getLast?_concat]
        simp
      · rw [List.dropLast_concat]
        exact (coreMatch_iff _).mpr ⟨l, c1, c2, c3, c4, rfl, hne, hd, hnl⟩

lemma searchYear_isSome (l r : List Char) (c1 c2 c3 c4 : Char)
    (h1 : c1.isDigit = true) (h2 : c2.isDigit = true)
    (h3 : c3.isDigit = true) (h4 : c4.isDigit = true) :
    (searchYear (l ++ '(' :: c1 :: c2 :: c3 :: c4 :: ')' :: r)).isSome = true := by
  induction l with
  | nil =>
    rw [List.nil_append]
    have hm : matchYearAt ('(' :: c1 :: c2 :: c3 :: c4 :: ')' :: r) =
        some ((c1.toNat - '0'.toNat) * 1000 + (c2.toNat - '0'.toNat) * 100 +
              (c3.toNat - '0'.toNat) * 10 + (c4.toNat - '0'.toNat)) := by
      simp [matchYearAt, h1, h2, h3, h4]
    simp [searchYear, hm]
  | cons a t ih =>
    rw [List.cons_append]
    rw [searchYear]
    cases hm : matchYearAt (a :: (t ++ '(' :: c1 :: c2 :: c3 :: c4 :: ')' :: r)) with
    | some y => simp
    | none => simpa using ih

lemma extract_year_isSome_of_check (fp : String)
    (h : check_proper_folder_name fp = true) :
    (extract_year fp).isSome = true := by
  unfold check_proper_folder_name at h
  obtain ⟨l, c1, c2, c3, c4, t, hcs, hne, hd, hnl, ht⟩ :=
    (matchesNamePattern_iff _).mp h
  unfold extract_year
  rw [hcs]
  have hre : l ++ [' ', '(', c1, c2, c3, c4, ')'] ++ t
      = (l ++ [' ']) ++ '(' :: c1 :: c2 :: c3 :: c4 :: ')' :: t := by
    simp
  rw [hre]
  exact searchYear_isSome _ _ _ _ _ _ hd.1 hd.2.1 hd.2.2.1 hd.2.2.2

/-! ### Helper lemmas: locator, cleaner, converter -/

lemma find_proper_video_mem (folder : Folder) (l : List String)
    (hf : find_proper_video folder = some l) (p : String) :
    p ∈ l ↔ ∃ y e, extract_year folder.path = some y ∧ e ∈ folder.entries ∧
      e.isDir = false ∧ (splitext e.name).2 ∈ VIDEO_EXTENSIONS ∧
      List.IsInfix (toString y).data ((splitext e.name).1).data ∧
      p = joinPath folder.path e.name := by
  unfold find_proper_video at hf
  cases hy : extract_year folder.path with
  | none => rw [hy] at hf; cases hf
  | some y =>
    rw [hy] at hf
    have hl : l = folder.entries.filterMap (videoMatch? y folder.path) := by
      injection hf with hf
      exact hf.symm
    subst hl
    rw [List.mem_filterMap]
    constructor
    · rintro ⟨e, he, hv⟩
      unfold videoMatch? at hv
      by_cases hdir : e.isDir = true
      · rw [hdir] at hv
        simp at hv
      · have hdf : e.isDir = false := by simpa using hdir
        rw [hdf] at hv
        simp only [Bool.false_eq_true, if_false] at hv
        by_cases hext : (splitext e.name).2 ∈ VIDEO_EXTENSIONS
        · rw [if_pos hext] at hv
          by_cases hinf :
              List.IsInfix (toString y).data ((splitext e.name).1).data
          · rw [if_pos hinf] at hv
            injection hv with hv
            exact ⟨y, e, rfl, he, hdf, hext, hinf, hv.symm⟩
          · rw [if_neg hinf] at hv
            cases hv
        · rw [if_neg hext] at hv
          cases hv
    · rintro ⟨y', e, hy', he, hdir, hext, hinf, rfl⟩
      injection hy' with hyy
      subst hyy
      exact ⟨e, he, by simp [videoMatch?, hdir, hext, hinf]⟩

lemma delete_excess_files_eq (fp : String) (entries : List DirEntry)
    (keep : String) (modify : Bool) :
    delete_excess_files fp entries keep modify =
      ((entries.filter fun e => decide (joinPath fp e.name ≠ keep)).map
         (fun e => deleteMsgOf modify (joinPath fp e.name)),
       if modify then
         (entries.filter fun e => decide (joinPath fp e.name ≠ keep)).map
           (fun e => deleteEffOf e (joinPath fp e.name))
       else []) := by
  induction entries with
  | nil => cases modify <;> simp [delete_excess_files]
  | cons e rest ih =>
    rw [delete_excess_files]
    by_cases hk : joinPath fp e.name = keep
    · cases modify <;> simp [hk, ih, List.filter_cons]
    · cases modify <;> simp [hk, ih, List.filter_cons]

lemma convert_dry (env : ProcEnv) (fp vp : String) (op : Operations) :
    ∃ r, convert_proper_video env fp vp op false = (Except.ok r, []) := by
  unfold convert_proper_video
  by_cases hext : (splitext (basename vp)).2 = PREFERRED_VIDEO_EXTENSION
  · rw [if_pos hext]
    exact ⟨_, rfl⟩
  · rw [if_neg hext]
    cases op
    · exact ⟨_, rfl⟩
    · exact ⟨_, rfl⟩

lemma convert_already (env : ProcEnv) (fp vp : String) (op : Operations)
    (modify : Bool)
    (hext : (splitext (basename vp)).2 = PREFERRED_VIDEO_EXTENSION) :
    convert_proper_video env fp vp op modify =
      (Except.ok (vp, s!"{vp} already encoded as {PREFERRED_VIDEO_EXTENSION}"),
       []) := by
  unfold convert_proper_video
  rw [if_pos hext]

lemma convert_fail (env : ProcEnv) (fp vp : String) (op : Operations)
    (hext : (splitext (basename vp)).2 ≠ PREFERRED_VIDEO_EXTENSION)
    (hfail : env (convArgs op fp vp) ≠ 0) :
    convert_proper_video env fp vp op true =
      (Except.error (PyErr.calledProcessError (convArgs op fp vp)),
       [Effect.run (convArgs op fp vp)]) := by
  cases op <;> simp [convert_proper_video, hext, hfail]

/-! ### Helper lemmas: the per-folder pipeline and the batch driver -/

lemma process_folder_not_proper (env : ProcEnv) (folder : Folder)
    (op : Operations) (modify : Bool)
    (h : check_proper_folder_name folder.path = false) :
    process_folder env folder op modify =
      ⟨Except.ok (some "Improper folder name"), [], []⟩ := by
  unfold process_folder
  rw [h]
  rfl

lemma process_folder_ambiguous (env : ProcEnv) (folder : Folder)
    (op : Operations) (modify : Bool) (l : List String)
    (hc : check_proper_folder_name folder.path = true)
    (hf : find_proper_video folder = some l) (hl : l.length ≠ 1) :
    process_folder env folder op modify =
      ⟨Except.ok (some "Could not automatically isolate correct video"),
       [], []⟩ := by
  unfold process_folder
  rw [hc, hf]
  rcases l with _ | ⟨a, _ | ⟨b, t⟩⟩
  · rfl
  · exact absurd rfl hl
  · rfl

lemma process_folder_single (env : ProcEnv) (folder : Folder)
    (op : Operations) (modify : Bool) (v : String)
    (hc : check_proper_folder_name folder.path = true)
    (hf : find_proper_video folder = some [v]) :
    process_folder env folder op modify =
      (let rn := rename_proper_video folder.path v modify
       let entries1 := applyEffects folder.path folder.entries rn.2
       let cv := convert_proper_video env folder.path rn.1.1 op modify
       match cv.1 with
       | Except.error e => ⟨Except.error e, rn.2 ++ cv.2, [rn.1.2]⟩
       | Except.ok res =>
         let entries2 :=
           if cv.2.isEmpty then entries1
           else entries1 ++ [⟨basename res.1, false⟩]
         let del := delete_excess_files folder.path entries2 res.1 modify
         ⟨Except.ok none, rn.2 ++ cv.2 ++ del.2, rn.1.2 :: res.2 :: del.1⟩) := by
  unfold process_folder
  rw [hc, hf]
  rfl

lemma process_folder_dry_effects (env : ProcEnv) (folder : Folder)
    (op : Operations) :
    (process_folder env folder op false).effects = [] := by
  by_cases hc : check_proper_folder_name folder.path = true
  · cases hfo : find_proper_video folder with
    | none =>
      unfold process_folder
      rw [hc, hfo]
      rfl
    | some l =>
      rcases l with _ | ⟨v, _ | ⟨w, t⟩⟩
      · rw [process_folder_ambiguous env folder op false [] hc hfo (by simp)]
      · obtain ⟨r, hcv⟩ := convert_dry env folder.path
          (rename_proper_video folder.path v false).1.1 op
        rw [process_folder_single env folder op false v hc hfo]
        simp only [hcv, delete_excess_files_eq]
        simp [rename_proper_video]
      · rw [process_folder_ambiguous env folder op false (v :: w :: t) hc hfo
          (by simp)]
  · rw [process_folder_not_proper env folder op false
      (Bool.not_eq_true _ ▸ hc)]

lemma process_folder_printed_cons (env : ProcEnv) (folder : Folder)
    (op : Operations) (modify : Bool) (v : String)
    (hc : check_proper_folder_name folder.path = true)
    (hf : find_proper_video folder = some [v]) :
    ∃ rest, (process_folder env folder op modify).printed =
      (rename_proper_video folder.path v modify).1.2 :: rest := by
  rw [process_folder_single env folder op modify v hc hf]
  cases hcv : (convert_proper_video env folder.path
      (rename_proper_video folder.path v modify).1.1 op modify).1 with
  | error e =>
    refine ⟨[], ?_⟩
    simp only [hcv]
  | ok res =>
    refine ⟨res.2 :: (delete_excess_files folder.path
      (if (convert_proper_video env folder.path
            (rename_proper_video folder.path v modify).1.1 op modify).2.isEmpty
       then applyEffects folder.path folder.entries
         (rename_proper_video folder.path v modify).2
       else applyEffects folder.path folder.entries
         (rename_proper_video folder.path v modify).2 ++
           [⟨basename res.1, false⟩]) res.1 modify).1, ?_⟩
    simp only [hcv]

lemma process_folder_procfail (env : ProcEnv) (folder : Folder)
    (op : Operations) (v : String)
    (hc : check_proper_folder_name folder.path = true)
    (hf : find_proper_video folder = some [v])
    (hext : (splitext (basename
        (rename_proper_video folder.path v true).1.1)).2 ≠
        PREFERRED_VIDEO_EXTENSION)
    (hfail : env (convArgs op folder.path
        (rename_proper_video folder.path v true).1.1) ≠ 0) :
    process_folder env folder op true =
      ⟨Except.error (PyErr.calledProcessError (convArgs op folder.path
          (rename_proper_video folder.path v true).1.1)),
       (rename_proper_video folder.path v true).2 ++
         [Effect.run (convArgs op folder.path
           (rename_proper_video folder.path v true).1.1)],
       [(rename_proper_video folder.path v true).1.2]⟩ := by
  rw [process_folder_single env folder op true v hc hf]
  simp only [convert_fail env folder.path
    (rename_proper_video folder.path v true).1.1 op hext hfail]

lemma runFolders_ok_eq (env : ProcEnv) (parent : String) (op : Operations)
    (modify : Bool) (l : List ParentEntry)
    (report : List (String × String))
    (h : runFolders env parent op modify l = Except.ok report) :
    report = l.filterMap (fun e =>
      if e.isDir then
        match (process_folder env ⟨joinPath parent e.name, e.contents⟩ op
            modify).outcome with
        | Except.ok (some err) => some (joinPath parent e.name, err)
        | _ => none
      else none) := by
  induction l generalizing report with
  | nil =>
    rw [runFolders] at h
    injection h with h
    simp [h.symm]
  | cons e rest ih =>
    rw [runFolders] at h
    by_cases hd : e.isDir = true
    · rw [if_pos hd] at h
      cases ho : (process_folder env ⟨joinPath parent e.name, e.contents⟩ op
          modify).outcome with
      | error pe => rw [ho] at h; cases h
      | ok oerr =>
        rw [ho] at h
        cases oerr with
        | none =>
          rw [List.filterMap_cons]
          simp only [hd, if_pos, ho]
          exact ih report h
        | some err =>
          cases hrest : runFolders env parent op modify rest with
          | error pe => rw [hrest] at h; cases h
          | ok rep' =>
            rw [hrest] at h
            injection h with h
            rw [List.filterMap_cons]
            simp only [hd, if_pos, ho]
            rw [← h, ih rep' hrest]
    · rw [if_neg hd] at h
      rw [List.filterMap_cons]
      have hdf : e.isDir = false := by simpa using hd
      simp only [hdf, Bool.false_eq_true, if_false]
      exact ih report h

lemma runFolders_cons_fail (env : ProcEnv) (parent : String)
    (op : Operations) (modify : Bool) (e : ParentEntry)
    (rest : List ParentEntry) (err : String) (hd : e.isDir = true)
    (ho : (process_folder env ⟨joinPath parent e.name, e.contents⟩ op
        modify).outcome = Except.ok (some err)) :
    runFolders env parent op modify (e :: rest) =
      (runFolders env parent op modify rest).map
        (fun r => (joinPath parent e.name, err) :: r) := by
  rw [runFolders, if_pos hd, ho]
  cases hrest : runFolders env parent op modify rest <;> rfl

lemma specProperName_iff (cs : List Char) :
    specProperNameB cs = true ↔ specProperName cs := by
  constructor
  · intro h
    simp only [specProperNameB, Bool.and_eq_true, decide_eq_true_eq] at h
    obtain ⟨hlen, hsuf⟩ := h
    obtain ⟨c1, c2, c3, c4, hdrop, hd⟩ := (yearSuffix?_iff _).mp hsuf
    refine ⟨cs.take (cs.length - 7), c1, c2, c3, c4, ?_, ?_, hd⟩
    · conv_lhs => rw [← List.take_append_drop (cs.length - 7) cs]
      rw [hdrop]
    · intro hnil
      have hlt := congrArg List.length hnil
      simp only [List.length_take, List.length_nil] at hlt
      omega
  · rintro ⟨l, c1, c2, c3, c4, rfl, hne, hd⟩
    have hl1 : 1 ≤ l.length := by
      cases l with
      | nil => exact absurd rfl hne
      | cons a t => simp
    have hlen : (l ++ [' ', '(', c1, c2, c3, c4, ')']).length = l.length + 7 := by
      simp
    simp only [specProperNameB, Bool.and_eq_true, decide_eq_true_eq, hlen]
    have h7 : l.length + 7 - 7 = l.length := by omega
    rw [h7, List.drop_left]
    exact ⟨by omega, (yearSuffix?_iff _).mpr ⟨c1, c2, c3, c4, rfl, hd⟩⟩

lemma process_folder_dry_printed (env : ProcEnv) (folder : Folder)
    (op : Operations) (v : String)
    (hc : check_proper_folder_name folder.path = true)
    (hf : find_proper_video folder = some [v]) :
    ∃ r, (convert_proper_video env folder.path
        (rename_proper_video folder.path v false).1.1 op false).1 =
          Except.ok r ∧
      (process_folder env folder op false).printed =
        (rename_proper_video folder.path v false).1.2 :: r.2 ::
          (delete_excess_files folder.path folder.entries r.1 false).1 := by
  obtain ⟨r, hdry⟩ := convert_dry env folder.path
    (rename_proper_video folder.path v false).1.1 op
  refine ⟨r, by rw [hdry], ?_⟩
  rw [process_folder_single env folder op false v hc hf]
  simp only [hdry]
  simp [rename_proper_video, applyEffects]

lemma runFolders_cons_err (env : ProcEnv) (parent : String)
    (op : Operations) (modify : Bool) (e : ParentEntry)
    (rest : List ParentEntry) (pe : PyErr) (hd : e.isDir = true)
    (ho : (process_folder env ⟨joinPath parent e.name, e.contents⟩ op
        modify).outcome = Except.error pe) :
    runFolders env parent op modify (e :: rest) = Except.error pe := by
  rw [runFolders, if_pos hd, ho]

/-! ### Claims -/

/-- C1: In dry-run mode (`modify = False`), no component mutates the
filesystem or invokes an external process: `rename_proper_video` records no
rename, `convert_proper_video` records no subprocess run (and returns
normally), `delete_excess_files` records no removal (and neither does the
whole `process_folder` pipeline), while each still returns/records the
descriptive messages of the intended actions. -/
theorem claim_C1 (env : ProcEnv) (fp vp keep : String) (op : Operations)
    (entries : List DirEntry) (folder : Folder) :
    (rename_proper_video fp vp false).2 = [] ∧
    (∃ r, convert_proper_video env fp vp op false = (Except.ok r, [])) ∧
    (delete_excess_files fp entries keep false).2 = [] ∧
    (let cn := (splitext (basename vp)).1
     let ce := (splitext (basename vp)).2
     let nn := (splitext (basename fp)).1
     (rename_proper_video fp vp false).1.2 = s!"Rename {cn}{ce} to {nn}{ce}") ∧
    (delete_excess_files fp entries keep false).1 =
      (entries.filter fun e => decide (joinPath fp e.name ≠ keep)).map
        (fun e => deleteMsgOf false (joinPath fp e.name)) ∧
    (process_folder env folder op false).effects = [] := by
  refine ⟨rfl, convert_dry env fp vp op, ?_, rfl, ?_,
    process_folder_dry_effects env folder op⟩
  · rw [delete_excess_files_eq]
    rfl
  · rw [delete_excess_files_eq]

/-- C2: `process_folder` proceeds past the locator iff `find_proper_video`
returns exactly one candidate; with zero or several candidates the folder
fails with "Could not automatically isolate correct video" and no effect is
performed in either mode; in batch mode the driver records the failure and
continues with the remaining folders. -/
theorem claim_C2 :
    (∀ (env : ProcEnv) (folder : Folder) (op : Operations) (modify : Bool)
        (l : List String), check_proper_folder_name folder.path = true →
      find_proper_video folder = some l → l.length ≠ 1 →
      process_folder env folder op modify =
        ⟨Except.ok (some "Could not automatically isolate correct video"),
         [], []⟩) ∧
    (∀ (env : ProcEnv) (folder : Folder) (op : Operations) (modify : Bool),
      check_proper_folder_name folder.path = true →
      ∃ l, find_proper_video folder = some l ∧
        ((process_folder env folder op modify).printed ≠ [] ↔
          l.length = 1)) ∧
    (∀ (env : ProcEnv) (parent : String) (op : Operations) (modify : Bool)
        (e : ParentEntry) (rest : List ParentEntry) (err : String),
      e.isDir = true →
      (process_folder env ⟨joinPath parent e.name, e.contents⟩ op
          modify).outcome = Except.ok (some err) →
      runFolders env parent op modify (e :: rest) =
        (runFolders env parent op modify rest).map
          (fun r => (joinPath parent e.name, err) :: r)) := by
  refine ⟨process_folder_ambiguous, ?_, runFolders_cons_fail⟩
  intro env folder op modify hc
  obtain ⟨y, hy⟩ := Option.isSome_iff_exists.mp
    (extract_year_isSome_of_check folder.path hc)
  have hfind : find_proper_video folder =
      some (folder.entries.filterMap (videoMatch? y folder.path)) := by
    unfold find_proper_video
    rw [hy]
  refine ⟨folder.entries.filterMap (videoMatch? y folder.path), hfind, ?_, ?_⟩
  · intro hne
    by_contra hlen
    rw [process_folder_ambiguous env folder op modify _ hc hfind hlen] at hne
    exact hne rfl
  · intro hlen
    obtain ⟨v, hv⟩ := List.length_eq_one.mp hlen
    rw [hv] at hfind
    obtain ⟨rest, hpr⟩ :=
      process_folder_printed_cons env folder op modify v hc hfind
    rw [hpr]
    simp

/-- C2 witness: a folder with two matching candidates fails with the
isolation message, performs nothing, and the batch driver carries on. -/
theorem claim_C2_witness :
    process_folder (fun _ => 0)
      ⟨"/movies/Inception (2010)",
       [⟨"Inception.2010.mp4", false⟩, ⟨"inception 2010 rip.mkv", false⟩]⟩
      Operations.TRANSCODE true =
      ⟨Except.ok (some "Could not automatically isolate correct video"),
       [], []⟩ :=
  claim_C2.1 (fun _ => 0)
    ⟨"/movies/Inception (2010)",
     [⟨"Inception.2010.mp4", false⟩, ⟨"inception 2010 rip.mkv", false⟩]⟩
    Operations.TRANSCODE true
    ["/movies/Inception (2010)/Inception.2010.mp4",
     "/movies/Inception (2010)/inception 2010 rip.mkv"]
    (by decide) (by rfl) (by decide)

/-- C3 counterexample: with a trailing newline in the folder name, Python's
`$` still matches, so `check_proper_folder_name` is `true` although the name
does not match `<non-empty prefix> (YYYY)` exactly. -/
theorem claim_C3_counterexample :
    check_proper_folder_name "a (2010)\n" = true ∧
    ¬ specProperName (basename "a (2010)\n").data := by
  constructor
  · decide
  · rw [← specProperName_iff]
    decide

/-- C3 (amended): `check_proper_folder_name` returns true exactly when the
folder's base name is `<non-empty prefix> (YYYY)` — YYYY any 4 digits, the
prefix free of newlines — optionally followed by one trailing newline; it
returns false for every other name. -/
theorem claim_C3_amended (fp : String) :
    check_proper_folder_name fp = true ↔
      ∃ l c1 c2 c3 c4 t,
        (basename fp).data = l ++ [' ', '(', c1, c2, c3, c4, ')'] ++ t ∧
        l ≠ [] ∧
        (c1.isDigit = true ∧ c2.isDigit = true ∧ c3.isDigit = true ∧
          c4.isDigit = true) ∧ '\n' ∉ l ∧ (t = [] ∨ t = ['\n']) :=
  matchesNamePattern_iff (basename fp).data

/-- C4: every path returned by `find_proper_video` is a direct non-directory
child of the folder whose extension is in the whitelist and whose base name
(extension stripped) contains the extracted year's decimal rendering as a
substring — and conversely. -/
theorem claim_C4 (folder : Folder) (l : List String)
    (hf : find_proper_video folder = some l) (p : String) :
    p ∈ l ↔ ∃ y e, extract_year folder.path = some y ∧ e ∈ folder.entries ∧
      e.isDir = false ∧ (splitext e.name).2 ∈ VIDEO_EXTENSIONS ∧
      List.IsInfix (toString y).data ((splitext e.name).1).data ∧
      p = joinPath folder.path e.name :=
  find_proper_video_mem folder l hf p

/-- C4 witness: concrete folder whose single returned path satisfies all the
stated conditions. -/
theorem claim_C4_witness :
    ∃ y e, extract_year "/movies/Inception (2010)" = some y ∧
      e ∈ (Folder.mk "/movies/Inception (2010)"
        [⟨"Inception.2010.mp4", false⟩, ⟨"poster.jpg", false⟩]).entries ∧
      e.isDir = false ∧ (splitext e.name).2 ∈ VIDEO_EXTENSIONS ∧
      List.IsInfix (toString y).data ((splitext e.name).1).data ∧
      "/movies/Inception (2010)/Inception.2010.mp4" =
        joinPath "/movies/Inception (2010)" e.name :=
  (claim_C4 (Folder.mk "/movies/Inception (2010)"
      [⟨"Inception.2010.mp4", false⟩, ⟨"poster.jpg", false⟩])
    ["/movies/Inception (2010)/Inception.2010.mp4"] (by rfl)
    "/movies/Inception (2010)/Inception.2010.mp4").mp (by decide)

/-- C5 counterexample: for a folder whose base name contains a dot, the
computed target is NOT the folder's base name plus the video's extension —
`splitext` strips the part of the folder name after its last dot. -/
theorem claim_C5_counterexample :
    (rename_proper_video "/m/M.A.S.H (1970)"
      "/m/M.A.S.H (1970)/MASH 1970.mp4" false).1.1 =
      "/m/M.A.S.H (1970)/M.A.S.mp4" ∧
    "/m/M.A.S.H (1970)/M.A.S.mp4" ≠
      joinPath "/m/M.A.S.H (1970)"
        (basename "/m/M.A.S.H (1970)" ++
          (splitext (basename "/m/M.A.S.H (1970)/MASH 1970.mp4")).2) := by
  exact ⟨rfl, by decide⟩

/-- C5 (amended): `rename_proper_video` computes the target path as the
folder's base name with its `splitext` extension stripped, concatenated with
the original video's extension, inside the folder; in apply mode it records
exactly the rename to that path with a "[RENAMED]" message, in dry-run mode
it returns the same path with a "Rename" message and no effect. -/
theorem claim_C5_amended (fp vp : String) (modify : Bool) :
    (rename_proper_video fp vp modify).1.1 =
      joinPath fp ((splitext (basename fp)).1 ++ (splitext (basename vp)).2) ∧
    (rename_proper_video fp vp modify).2 =
      (if modify then
        [Effect.rename vp (joinPath fp
          ((splitext (basename fp)).1 ++ (splitext (basename vp)).2))]
       else []) ∧
    (let nn := (splitext (basename fp)).1
     let cn := (splitext (basename vp)).1
     let ce := (splitext (basename vp)).2
     (rename_proper_video fp vp modify).1.2 =
       if modify then s!"[RENAMED] {cn}{ce} to {nn}{ce}"
       else s!"Rename {cn}{ce} to {nn}{ce}") := by
  cases modify <;> exact ⟨rfl, rfl, rfl⟩

/-- C6: when the video already has the preferred extension, the converter
short-circuits with the unchanged path, an "already encoded" message and no
external call, in both modes and for both operations. -/
theorem claim_C6 (env : ProcEnv) (fp vp : String) (op : Operations)
    (modify : Bool)
    (hext : (splitext (basename vp)).2 = PREFERRED_VIDEO_EXTENSION) :
    convert_proper_video env fp vp op modify =
      (Except.ok (vp,
        s!"{vp} already encoded as {PREFERRED_VIDEO_EXTENSION}"), []) :=
  convert_already env fp vp op modify hext

/-- C6 witness. -/
theorem claim_C6_witness :
    convert_proper_video (fun _ => 1) "/m" "/m/a.mkv" Operations.TRANSCODE
      true = (Except.ok ("/m/a.mkv", "/m/a.mkv already encoded as .mkv"),
        []) :=
  claim_C6 (fun _ => 1) "/m" "/m/a.mkv" Operations.TRANSCODE true (by decide)

/-- C7: in apply mode, when the extension differs from the preferred one, a
non-zero exit from the external tool makes `process_folder` end with an
uncaught `CalledProcessError` (not an assertion failure), and the batch
driver aborts the whole run on such an error. -/
theorem claim_C7 :
    (∀ (env : ProcEnv) (folder : Folder) (op : Operations) (v : String),
      check_proper_folder_name folder.path = true →
      find_proper_video folder = some [v] →
      (splitext (basename
        (rename_proper_video folder.path v true).1.1)).2 ≠
        PREFERRED_VIDEO_EXTENSION →
      env (convArgs op folder.path
        (rename_proper_video folder.path v true).1.1) ≠ 0 →
      (process_folder env folder op true).outcome =
        Except.error (PyErr.calledProcessError (convArgs op folder.path
          (rename_proper_video folder.path v true).1.1))) ∧
    (∀ (env : ProcEnv) (parent : String) (op : Operations) (modify : Bool)
        (e : ParentEntry) (rest : List ParentEntry) (pe : PyErr),
      e.isDir = true →
      (process_folder env ⟨joinPath parent e.name, e.contents⟩ op
          modify).outcome = Except.error pe →
      runFolders env parent op modify (e :: rest) = Except.error pe) := by
  refine ⟨?_, runFolders_cons_err⟩
  intro env folder op v hc hf hext hfail
  rw [process_folder_procfail env folder op v hc hf hext hfail]

/-- C7 witness: a transcode whose external tool exits 1 aborts the run. -/
theorem claim_C7_witness :
    (process_folder (fun _ => 1)
      ⟨"/movies/Inception (2010)", [⟨"Inception.2010.mp4", false⟩]⟩
      Operations.TRANSCODE true).outcome =
    Except.error (PyErr.calledProcessError
      (convArgs Operations.TRANSCODE "/movies/Inception (2010)"
        (rename_proper_video "/movies/Inception (2010)"
          "/movies/Inception (2010)/Inception.2010.mp4" true).1.1)) :=
  claim_C7.1 (fun _ => 1)
    ⟨"/movies/Inception (2010)", [⟨"Inception.2010.mp4", false⟩]⟩
    Operations.TRANSCODE "/movies/Inception (2010)/Inception.2010.mp4"
    (by decide) (by rfl) (by decide) (by decide)

/-- C8: `delete_excess_files` reports exactly the direct children whose path
differs from the kept path — in apply mode with a "[DELETED]" message and a
recursive-directory/single-file removal effect, in dry-run with a "Delete"
message and no effect — and entries equal to the kept path are neither
deleted nor reported. -/
theorem claim_C8 (fp : String) (entries : List DirEntry) (keep : String)
    (modify : Bool) :
    delete_excess_files fp entries keep modify =
      ((entries.filter fun e => decide (joinPath fp e.name ≠ keep)).map
         (fun e => deleteMsgOf modify (joinPath fp e.name)),
       if modify then
         (entries.filter fun e => decide (joinPath fp e.name ≠ keep)).map
           (fun e => deleteEffOf e (joinPath fp e.name))
       else []) :=
  delete_excess_files_eq fp entries keep modify

/-- C9: whenever batch mode finishes normally, its report is exactly the
per-folder failures, in the order given by iterating the non-hidden
immediate entries in sorted order and skipping non-directories. -/
theorem claim_C9 (env : ProcEnv) (parent : String)
    (entries : List ParentEntry) (op : Operations) (modify : Bool)
    (report : List (String × String))
    (h : main_many env parent entries op modify = Except.ok report) :
    ∃ l : List ParentEntry,
      l.Pairwise nameLe ∧
      List.Perm l (entries.filter fun e => !(startsWithChar e.name '.')) ∧
      report = l.filterMap (fun e =>
        if e.isDir then
          match (process_folder env ⟨joinPath parent e.name, e.contents⟩ op
              modify).outcome with
          | Except.ok (some err) => some (joinPath parent e.name, err)
          | _ => none
        else none) := by
  haveI : IsTotal ParentEntry nameLe :=
    ⟨fun a b => charListLe_total a.name.data b.name.data⟩
  haveI : IsTrans ParentEntry nameLe :=
    ⟨fun _ _ _ h1 h2 => charListLe_trans _ _ _ h1 h2⟩
  refine ⟨List.insertionSort nameLe
    (entries.filter fun e => !(startsWithChar e.name '.')), ?_, ?_, ?_⟩
  · exact List.sorted_insertionSort _ _
  · exact List.perm_insertionSort _ _
  · exact runFolders_ok_eq env parent op modify _ report h

/-- C9 witness: one bad folder, one hidden entry and one plain file produce
exactly the one-failure report. -/
theorem claim_C9_witness :
    ∃ l : List ParentEntry,
      l.Pairwise nameLe ∧
      List.Perm l
        (([⟨"Bad", true, []⟩, ⟨".hidden", true, []⟩,
           ⟨"notes.txt", false, []⟩] : List ParentEntry).filter
          fun e => !(startsWithChar e.name '.')) ∧
      [("/movies/Bad", "Improper folder name")] = l.filterMap (fun e =>
        if e.isDir then
          match (process_folder (fun _ => 0)
              ⟨joinPath "/movies" e.name, e.contents⟩ Operations.REMUX
              false).outcome with
          | Except.ok (some err) => some (joinPath "/movies" e.name, err)
          | _ => none
        else none) :=
  claim_C9 (fun _ => 0) "/movies"
    [⟨"Bad", true, []⟩, ⟨".hidden", true, []⟩, ⟨"notes.txt", false, []⟩]
    Operations.REMUX false [("/movies/Bad", "Improper folder name")] (by rfl)

/-- C10: in dry-run mode, with exactly one candidate whose path differs from
the simulated post-rename/post-conversion path, the cleaner's report includes
a would-delete message for the original video file itself. -/
theorem claim_C10 (env : ProcEnv) (folder : Folder) (op : Operations)
    (v : String) (hc : check_proper_folder_name folder.path = true)
    (hf : find_proper_video folder = some [v]) (res : String × String)
    (hcv : (convert_proper_video env folder.path
      (rename_proper_video folder.path v false).1.1 op false).1 =
        Except.ok res)
    (hne : v ≠ res.1) :
    deleteMsgOf false v ∈ (process_folder env folder op false).printed := by
  obtain ⟨y, e, hy, he, hdir, hext, hinf, hpe⟩ :=
    (find_proper_video_mem folder [v] hf v).mp (by simp)
  obtain ⟨r, hr, hpr⟩ := process_folder_dry_printed env folder op v hc hf
  have hres : res = r := by
    rw [hr] at hcv
    injection hcv with h
    exact h.symm
  subst hres
  rw [hpr]
  refine List.mem_cons_of_mem _ (List.mem_cons_of_mem _ ?_)
  rw [delete_excess_files_eq]
  refine List.mem_map.mpr ⟨e, List.mem_filter.mpr ⟨he, ?_⟩, ?_⟩
  · rw [← hpe]
    simpa using hne
  · rw [← hpe]

/-- C10 witness: dry run on a folder whose single candidate would be renamed
and converted, so its original file shows up in the would-delete report. -/
theorem claim_C10_witness :
    deleteMsgOf false "/movies/Inception (2010)/Inception.2010.mp4" ∈
      (process_folder (fun _ => 0)
        ⟨"/movies/Inception (2010)",
         [⟨"Inception.2010.mp4", false⟩, ⟨"poster.jpg", false⟩]⟩
        Operations.TRANSCODE false).printed :=
  claim_C10 (fun _ => 0)
    ⟨"/movies/Inception (2010)",
     [⟨"Inception.2010.mp4", false⟩, ⟨"poster.jpg", false⟩]⟩
    Operations.TRANSCODE "/movies/Inception (2010)/Inception.2010.mp4"
    (by decide) (by rfl)
    ("/movies/Inception (2010)/Inception (2010).mkv",
     "Transcode Inception (2010).mp4 to Inception (2010).mkv")
    (by rfl) (by decide)

end MovieOrganizer
